import Mathlib

/-!
Shallow embedding of `src/nanobot/channels/qq.py` (the `QQChannel` adapter):
the reply-sequence table, the outbound `send` path with its nested
`_send_text` / `_send_media_path` helpers, the dedup buffer and inbound
`_on_message` path, the `start` credential check and the `_run_bot`
reconnect loop.  External effects (SDK API posts, the shell upload command,
filesystem checks, attachment downloads, the bus handler) are modelled by
an explicit effect trace and environment records; Python `dict` is an
association list, `deque(maxlen=1000)` a list with bounded append.
-/

set_option autoImplicit false

namespace QQ

/-- Drop leading whitespace characters. -/
def stripLeftChars : List Char → List Char
  | [] => []
  | c :: cs => if c.isWhitespace then stripLeftChars cs else c :: cs

/-- Python `str.strip()` (structurally recursive, so that concrete inputs
evaluate in the kernel). -/
def pyStrip (s : String) : String :=
  String.mk (stripLeftChars (stripLeftChars s.data).reverse).reverse

/-- Python `str.lower()`. -/
def pyLower (s : String) : String :=
  String.mk (s.data.map Char.toLower)

/-- Python `str.startswith`. -/
def pyStartsWith (s pre : String) : Bool :=
  pre.data.isPrefixOf s.data

/-- Split a character list on a separator character (as Python
`str.split(sep)` for a one-character separator). -/
def splitOnChar (c : Char) : List Char → List (List Char)
  | [] => [[]]
  | d :: ds =>
      let r := splitOnChar c ds
      if d = c then [] :: r
      else
        match r with
        | [] => [[d]]
        | h :: t => (d :: h) :: t

/-- `deque(maxlen=1000).append`: appending when the buffer already holds
1000 entries drops the oldest entries so that the result again has length
at most 1000. -/
def dequeAppend (l : List String) (x : String) : List String :=
  (l ++ [x]).drop ((l.length + 1) - 1000)

/-- `QQChannel._is_url`: strip, lower-case, and test for an `http://` or
`https://` prefix. -/
def is_url (value : String) : Bool :=
  let v := pyLower (pyStrip value)
  pyStartsWith v "http://" || pyStartsWith v "https://"

/-- `QQChannel._IMAGE_EXTS`. -/
def IMAGE_EXTS : List String := [".png", ".jpg", ".jpeg", ".gif", ".bmp", ".webp"]

/-- The fields of `QQConfig` that `qq.py` reads (missing values are `none`,
matching Python `None`; the empty string is likewise falsy). -/
structure QQConfig where
  app_id : Option String
  secret : Option String
  media_upload_command : Option String
deriving DecidableEq

/-- `OutboundMessage` as read by `QQChannel.send`: chat id, optional text
content, optional media path list, optional metadata map (modelled as an
association list with string values). -/
structure OutboundMessage where
  chat_id : String
  content : Option String
  media : Option (List String)
  metadata : Option (List (String × String))
deriving DecidableEq

/-- One observable platform/system effect made by the send path: a
`post_c2c_message` call (text or media message, with its optional
`msg_id`/`msg_seq` reply pair), a `post_c2c_file` call, or an invocation of
the operator-configured media upload command. -/
inductive Effect
  | postC2CMessage (openid : String) (msg_type : Nat) (content : Option String)
      (media : Option String) (reply : Option (String × Nat))
  | postC2CFile (openid : String) (file_type : Nat) (url : String)
  | runUploadCommand (path : String)
deriving DecidableEq

/-- Environment for `send`: `os.path.isfile`, the URL extracted from the
upload command's output (`none` when the subprocess fails or prints no
URL), and the media handle returned by `post_c2c_file`. -/
structure SendEnv where
  isFile : String → Bool
  uploadUrl : String → Option String
  fileInfo : String → Nat → String → String

/-- Lookup in an association list, as Python `dict.get`. -/
def tblGet : List (String × Nat) → String → Option Nat
  | [], _ => none
  | (k', v) :: rest, k => if k' = k then some v else tblGet rest k

/-- Update/insert in an association list, as Python `dict.__setitem__`. -/
def tblSet : List (String × Nat) → String → Nat → List (String × Nat)
  | [], k, v => [(k, v)]
  | (k', v') :: rest, k, v =>
      if k' = k then (k', v) :: rest else (k', v') :: tblSet rest k v

/-- String-valued association-list lookup (for the metadata map). -/
def lookupStr : List (String × String) → String → Option String
  | [], _ => none
  | (k', v) :: rest, k => if k' = k then some v else lookupStr rest k

/-- `QQChannel._next_msg_seq`: `None` when not replying (Python falsy test,
so the empty id also yields `None`); otherwise read the last sequence used
for the reply target (default 0), store and return its successor. -/
def next_msg_seq (tbl : List (String × Nat)) (reply_to : Option String) :
    Option Nat × List (String × Nat) :=
  match reply_to with
  | none => (none, tbl)
  | some mid =>
      if mid = "" then (none, tbl)
      else
        let last := (tblGet tbl mid).getD 0
        (some (last + 1), tblSet tbl mid (last + 1))

/-- `QQChannel._upload_to_public_url_sync`: with no configured command
(after strip) return `None` without running anything; otherwise run the
command (recorded as an effect) and return the URL found in its output. -/
def upload_to_public_url_sync (cfg : QQConfig) (env : SendEnv) (file_path : String) :
    List Effect × Option String :=
  let cmd := pyStrip (cfg.media_upload_command.getD "")
  if cmd = "" then ([], none)
  else ([Effect.runUploadCommand file_path], env.uploadUrl file_path)

/-- The `_send_text` closure inside `send`: strip the text, skip it when
blank, otherwise post it; when replying with a live `msg_seq`, attach
`msg_id`/`msg_seq` and bump the local sequence counter. -/
def send_text (chat_id : String) (reply_to : Option String) (text : String)
    (seq : Option Nat) : List Effect × Option Nat :=
  let t := pyStrip text
  if t = "" then ([], seq)
  else
    match reply_to, seq with
    | some rid, some s =>
        if rid = "" then ([Effect.postC2CMessage chat_id 0 (some t) none none], seq)
        else ([Effect.postC2CMessage chat_id 0 (some t) none (some (rid, s))], some (s + 1))
    | some _, none => ([Effect.postC2CMessage chat_id 0 (some t) none none], seq)
    | none, _ => ([Effect.postC2CMessage chat_id 0 (some t) none none], seq)

/-- The media-message tail of `_send_media_path`: `post_c2c_file` for the
URL, then `post_c2c_message` with `msg_type=7` carrying the returned media
handle, with the same reply/sequence handling as `_send_text`. -/
def post_media (chat_id : String) (reply_to : Option String) (env : SendEnv)
    (ft : Nat) (url : String) (seq : Option Nat) : List Effect × Option Nat :=
  let info := env.fileInfo chat_id ft url
  let fileEff := Effect.postC2CFile chat_id ft url
  match reply_to, seq with
  | some rid, some s =>
      if rid = "" then ([fileEff, Effect.postC2CMessage chat_id 7 none (some info) none], seq)
      else ([fileEff, Effect.postC2CMessage chat_id 7 none (some info) (some (rid, s))],
            some (s + 1))
  | some _, none => ([fileEff, Effect.postC2CMessage chat_id 7 none (some info) none], seq)
  | none, _ => ([fileEff, Effect.postC2CMessage chat_id 7 none (some info) none], seq)

/-- `PurePosixPath(p).name`: the final path component. -/
def pathName (p : String) : String :=
  (((splitOnChar '/' p.data).map String.mk).filter (fun s => decide (s ≠ "") && decide (s ≠ "."))).getLastD ""

/-- Index of the last `.` in a character list, if any. -/
def lastDotIdx : List Char → Option Nat
  | [] => none
  | c :: cs =>
      match lastDotIdx cs with
      | some i => some (i + 1)
      | none => if c = '.' then some 0 else none

/-- `PurePosixPath(p).suffix`: the extension of the final component —
nonempty only when the last dot is neither first nor last in the name. -/
def pathSuffix (p : String) : String :=
  let name := pathName p
  match lastDotIdx name.data with
  | some i =>
      if 0 < i ∧ i < name.data.length - 1 then String.mk (name.data.drop i) else ""
  | none => ""

/-- The fallback text posted when a local file's type cannot be sent. -/
def FALLBACK_RESTRICTED : String :=
  "（QQ 附件发送受限：当前文件类型无法直接发送。QQ 官方富媒体接口主要支持图片/视频/语音，并要求公网 URL。建议把文件转成图片/视频，或实现上传并发送链接。）"

/-- The fallback text posted when no public URL could be obtained. -/
def FALLBACK_UPLOAD : String :=
  "（QQ 附件发送失败：QQ 官方接口要求公网可访问的 URL。请配置 channels.qq.mediaUploadCommand 让它把本地文件上传并输出 URL。）"

/-- The `_send_media_path` closure inside `send`: skip blank paths; post an
http(s) path directly as an image URL; for a local path require an existing
file, classify by extension, fall back to a text notice for unsupported
types or when no public URL is obtained, and otherwise post the media. -/
def send_media_path (cfg : QQConfig) (env : SendEnv) (chat_id : String)
    (reply_to : Option String) (path : String) (seq : Option Nat) :
    List Effect × Option Nat :=
  let p := pyStrip path
  if p = "" then ([], seq)
  else if is_url p then
    if p = "" then send_text chat_id reply_to FALLBACK_UPLOAD seq
    else post_media chat_id reply_to env 1 p seq
  else if env.isFile p = false then ([], seq)
  else
    let ext := pyLower (pathSuffix p)
    let ftO : Option Nat :=
      if ext ∈ IMAGE_EXTS then some 1
      else if ext = ".mp4" then some 2
      else if ext = ".silk" then some 3
      else none
    match ftO with
    | none => send_text chat_id reply_to FALLBACK_RESTRICTED seq
    | some ft =>
        let up := upload_to_public_url_sync cfg env p
        match up.2 with
        | none =>
            let r := send_text chat_id reply_to FALLBACK_UPLOAD seq
            (up.1 ++ r.1, r.2)
        | some url =>
            if url = "" then
              let r := send_text chat_id reply_to FALLBACK_UPLOAD seq
              (up.1 ++ r.1, r.2)
            else
              let r := post_media chat_id reply_to env ft url seq
              (up.1 ++ r.1, r.2)

/-- The `for p in (msg.media or [])` loop of `send`, threading the local
`msg_seq` through the per-item handler. -/
def send_media_list (cfg : QQConfig) (env : SendEnv) (chat_id : String)
    (reply_to : Option String) : List String → Option Nat → List Effect × Option Nat
  | [], seq => ([], seq)
  | p :: rest, seq =>
      let r := send_media_path cfg env chat_id reply_to p seq
      let r' := send_media_list cfg env chat_id reply_to rest r.2
      (r.1 ++ r'.1, r'.2)

/-- Python truthiness of `msg.content and str(msg.content).strip()`. -/
def hasContent (msg : OutboundMessage) : Bool :=
  match msg.content with
  | some s => if pyStrip s = "" then false else true
  | none => false

/-- Python truthiness of `msg.media and len(msg.media) > 0`. -/
def hasMedia (msg : OutboundMessage) : Bool :=
  match msg.media with
  | some l => if l.length = 0 then false else true
  | none => false

/-- The normalized reply target of `send`: `metadata.get("message_id")`
kept only when it is a string with nonblank strip (the original,
unstripped value is kept). -/
def replyTarget (msg : OutboundMessage) : Option String :=
  match lookupStr (msg.metadata.getD []) "message_id" with
  | some s => if pyStrip s = "" then none else some s
  | none => none

/-- `QQChannel.send`: return silently without a client or for a blank
message; otherwise draw one sequence number from the reply table, send all
media items, then the text.  The result is the effect trace plus the
updated reply-sequence table (only `_next_msg_seq` writes to it; the local
`msg_seq` increments are never stored back). -/
def send (cfg : QQConfig) (env : SendEnv) (client_ready : Bool)
    (msg : OutboundMessage) (tbl : List (String × Nat)) :
    List Effect × List (String × Nat) :=
  if client_ready = false then ([], tbl)
  else if hasContent msg = false ∧ hasMedia msg = false then ([], tbl)
  else
    let reply_to := replyTarget msg
    let st := next_msg_seq tbl reply_to
    let rm := send_media_list cfg env msg.chat_id reply_to (msg.media.getD []) st.1
    let rt :=
      if hasContent msg then send_text msg.chat_id reply_to (msg.content.getD "") rm.2
      else ([], rm.2)
    (rm.1 ++ rt.1, st.2)

/-- The `msg_seq` values attached to `post_c2c_message` calls for a given
reply target, in trace order. -/
def replySeqs (effs : List Effect) (rid : String) : List Nat :=
  effs.filterMap fun e =>
    match e with
    | Effect.postC2CMessage _ _ _ _ (some (r, s)) => if r = rid then some s else none
    | _ => none

/-- One attachment of an inbound message, as read through `getattr`
(`none` models a missing attribute; values are modelled as strings). -/
structure QQAttachment where
  url : Option String
  filename : Option String
deriving DecidableEq

/-- The author object of an inbound message (`getattr(author, 'id', None)`
and `getattr(author, 'user_openid', 'unknown')`). -/
structure MsgAuthor where
  id : Option String
  user_openid : Option String
deriving DecidableEq

/-- An inbound `C2CMessage` as read by `_on_message`.  A `none` in `id` or
`author` models a missing attribute, whose direct access raises; `content`
and `attachments` are read with `getattr` defaults and cannot raise. -/
structure C2CMessage where
  id : Option String
  author : Option MsgAuthor
  content : Option String
  attachments : Option (List QQAttachment)
deriving DecidableEq

/-- What `_download_attachment` (run inside the per-attachment `try`)
does for a given attachment: return a local path, return `None`
(failed download, caught inside the helper), or raise (e.g. `mkdir`). -/
inductive DownloadResult
  | ok (path : String)
  | failed
  | raised
deriving DecidableEq

/-- Environment for `_on_message`: the download outcome per attachment
index, and whether the bus handler `_handle_message` raises. -/
structure InEnv where
  download : Nat → DownloadResult
  handleRaises : Bool

/-- `str(getattr(author, 'id', None) or getattr(author, 'user_openid',
'unknown'))`: a missing or empty `id` falls back to `user_openid`, a
missing `user_openid` to `"unknown"`. -/
def resolveUserId (a : MsgAuthor) : String :=
  match a.id with
  | some s => if s = "" then a.user_openid.getD "unknown" else s
  | none => a.user_openid.getD "unknown"

/-- `Path(fp).name` as used for the attachment placeholder. -/
def attachmentName (fp : String) : String :=
  pathName fp

/-- The attachment loop of `_on_message`: for each attachment with a
nonblank string URL, download it; collect the placeholder content parts
and the local media paths (download errors are caught per attachment). -/
def processAtts (env : InEnv) : List QQAttachment → Nat → List String × List String
  | [], _ => ([], [])
  | att :: rest, i =>
      let r := processAtts env rest (i + 1)
      match att.url with
      | some u =>
          if pyStrip u = "" then r
          else
            match env.download i with
            | DownloadResult.ok fp =>
                (("[attachment: " ++ attachmentName fp ++ "]") :: r.1, fp :: r.2)
            | DownloadResult.failed => ("[attachment: download failed]" :: r.1, r.2)
            | DownloadResult.raised => ("[attachment: download failed]" :: r.1, r.2)
      | none => r

/-- What one `_on_message` call does, seen from outside. -/
inductive Outcome
  | forwarded (sender chat content : String) (media : List String)
      (message_id : String) (attachment_count : Nat)
  | droppedDuplicate
  | droppedEmpty
  | loggedError
deriving DecidableEq

/-- Python `"\n".join`. -/
def joinLines : List String → String
  | [] => ""
  | [s] => s
  | s :: rest => s ++ "\n" ++ joinLines rest

/-- The body of `_on_message` (the contents of its outer `try`): dedup
against the buffer (appending the id immediately after the check),
resolve the author, collect content parts and attachments, and forward to
the bus.  An `Except.error` marks an uncaught exception at any of the
modelled raise points; the buffer state is returned alongside, since a
raise does not roll back the append. -/
def on_message_body (env : InEnv) (ev : C2CMessage) (b : List String) :
    Except Unit Outcome × List String :=
  match ev.id with
  | none => (Except.error (), b)
  | some mid =>
      if mid ∈ b then (Except.ok Outcome.droppedDuplicate, b)
      else
        let b' := dequeAppend b mid
        match ev.author with
        | none => (Except.error (), b')
        | some a =>
            let userId := resolveUserId a
            let c := pyStrip (ev.content.getD "")
            let parts0 := if c = "" then [] else [c]
            let pm := processAtts env (ev.attachments.getD []) 0
            let parts := parts0 ++ pm.1
            if parts = [] ∧ pm.2 = [] then (Except.ok Outcome.droppedEmpty, b')
            else
              let joined := pyStrip (joinLines parts)
              let contentOut := if joined = "" then "[empty message]" else joined
              if env.handleRaises then (Except.error (), b')
              else
                (Except.ok (Outcome.forwarded userId userId contentOut pm.2 mid
                   ((ev.attachments.getD []).length)), b')

/-- `QQChannel._on_message`: the body wrapped in the outer
`try/except` — an exception anywhere is logged and the call returns
normally, keeping the buffer state reached so far. -/
def on_message (env : InEnv) (ev : C2CMessage) (b : List String) :
    Outcome × List String :=
  match on_message_body env ev b with
  | (Except.ok o, b') => (o, b')
  | (Except.error _, b') => (Outcome.loggedError, b')

/-- A sequence of inbound deliveries (each with its own environment),
processed in order against the dedup buffer; returns the per-event
outcomes and the final buffer. -/
def processAll : List (InEnv × C2CMessage) → List String → List Outcome × List String
  | [], b => ([], b)
  | (env, ev) :: rest, b =>
      let r := on_message env ev b
      let r' := processAll rest r.2
      (r.1 :: r'.1, r'.2)

/-- One action of the `_run_bot` loop: a connection attempt (which the SDK
completes or fails) or the 5-second reconnect sleep. -/
inductive RunAction
  | attemptOk
  | attemptFail
  | wait
deriving DecidableEq

/-- `QQChannel._run_bot`, fuel-bounded: each iteration reads the running
flag (reads are numbered by `r`; the flag is written concurrently by
`stop`), attempts the SDK connection (attempt number `a`; any exception is
caught and logged), and sleeps 5 seconds before retrying when the flag is
still set.  The boolean result records whether the loop exited (observed a
cleared flag) within the given fuel. -/
def run_bot (running fails : Nat → Bool) : Nat → Nat → Nat → List RunAction × Bool
  | 0, _, _ => ([], false)
  | Nat.succ f, r, a =>
      if running r then
        let att := if fails a then RunAction.attemptFail else RunAction.attemptOk
        let w := if running (r + 1) then [RunAction.wait] else []
        let rest := run_bot running fails f (r + 2) (a + 1)
        (att :: (w ++ rest.1), rest.2)
      else ([], true)

/-- Python truthiness of an optional string configuration value. -/
def optTruthy : Option String → Bool
  | some s => if s = "" then false else true
  | none => false

/-- What `QQChannel.start` reports. -/
inductive StartResult
  | sdkMissing
  | configError
  | started
deriving DecidableEq

/-- The adapter state that `start` touches. -/
structure ChannelState where
  running : Bool
  client_ready : Bool
deriving DecidableEq

/-- `QQChannel.start`: bail out when the SDK is unavailable or `app_id` /
`secret` is missing (state untouched, no connection attempted); otherwise
set the running flag, create the client, and run the reconnect loop,
whose actions are returned as the connection trace. -/
def start (sdkAvailable : Bool) (cfg : QQConfig) (running fails : Nat → Bool)
    (fuel : Nat) (st : ChannelState) : StartResult × ChannelState × List RunAction :=
  if sdkAvailable = false then (StartResult.sdkMissing, st, [])
  else if optTruthy cfg.app_id = false || optTruthy cfg.secret = false then
    (StartResult.configError, st, [])
  else
    (StartResult.started, { running := true, client_ready := true },
     (run_bot running fails fuel 0 0).1)

theorem fallback_restricted_trim : pyStrip FALLBACK_RESTRICTED = FALLBACK_RESTRICTED := by
  decide

theorem fallback_upload_trim : pyStrip FALLBACK_UPLOAD = FALLBACK_UPLOAD := by
  decide

theorem fallback_restricted_ne_blank : pyStrip FALLBACK_RESTRICTED ≠ "" := by decide

theorem fallback_upload_ne_blank : pyStrip FALLBACK_UPLOAD ≠ "" := by decide

theorem is_url_empty : is_url "" = false := by decide

/-- `_send_text` on a nonblank text posts exactly one text message. -/
theorem send_text_nonblank (chat_id : String) (reply_to : Option String)
    (text : String) (seq : Option Nat) (h : pyStrip text ≠ "") :
    ∃ rep seqOut, send_text chat_id reply_to text seq =
      ([Effect.postC2CMessage chat_id 0 (some (pyStrip text)) none rep], seqOut) := by
  unfold send_text
  simp only [h, if_false, reduceIte]
  cases reply_to with
  | none => exact ⟨none, seq, rfl⟩
  | some rid =>
    cases seq with
    | none => exact ⟨none, none, rfl⟩
    | some s =>
      by_cases hr : rid = ""
      · simp only [hr, reduceIte]
        exact ⟨none, some s, rfl⟩
      · simp only [hr, reduceIte]
        exact ⟨some (rid, s), some (s + 1), rfl⟩

/-- The media tail posts the file and then one `msg_type = 7` message. -/
theorem post_media_shape (chat_id : String) (reply_to : Option String)
    (env : SendEnv) (ft : Nat) (url : String) (seq : Option Nat) :
    ∃ rep seqOut, post_media chat_id reply_to env ft url seq =
      ([Effect.postC2CFile chat_id ft url,
        Effect.postC2CMessage chat_id 7 none (some (env.fileInfo chat_id ft url)) rep],
       seqOut) := by
  unfold post_media
  cases reply_to with
  | none => exact ⟨none, seq, rfl⟩
  | some rid =>
    cases seq with
    | none => exact ⟨none, none, rfl⟩
    | some s =>
      by_cases hr : rid = ""
      · simp only [hr, reduceIte]
        exact ⟨none, some s, rfl⟩
      · simp only [hr, reduceIte]
        exact ⟨some (rid, s), some (s + 1), rfl⟩

/-- C1: the reply-sequence table only ever records the first sequence
number drawn by a `send` call, while later posts of the same call bump a
local counter that is never written back.  Concretely: a first `send`
replying to message id `m` with one media URL and text posts sequence
numbers 1 and 2, yet a second `send` replying to `m` posts sequence
number 2 again — not strictly greater than every earlier sequence number
for that reply target, contradicting the claim (and the code's own comment
that `msg_seq` must be unique per `msg_id`). -/
theorem c1_msg_seq_reuse :
    replySeqs (send ⟨some "a", some "s", none⟩
        ⟨fun _ => false, fun _ => none, fun _ _ _ => "finfo"⟩ true
        ⟨"u", some "hi", some ["http://h/x.png"], some [("message_id", "m")]⟩ []).1 "m"
      = [1, 2] ∧
    replySeqs (send ⟨some "a", some "s", none⟩
        ⟨fun _ => false, fun _ => none, fun _ _ _ => "finfo"⟩ true
        ⟨"u", some "again", none, some [("message_id", "m")]⟩
        (send ⟨some "a", some "s", none⟩
          ⟨fun _ => false, fun _ => none, fun _ _ _ => "finfo"⟩ true
          ⟨"u", some "hi", some ["http://h/x.png"], some [("message_id", "m")]⟩ []).2).1 "m"
      = [2] ∧
    ¬ (∀ s₂ ∈ replySeqs (send ⟨some "a", some "s", none⟩
        ⟨fun _ => false, fun _ => none, fun _ _ _ => "finfo"⟩ true
        ⟨"u", some "again", none, some [("message_id", "m")]⟩
        (send ⟨some "a", some "s", none⟩
          ⟨fun _ => false, fun _ => none, fun _ _ _ => "finfo"⟩ true
          ⟨"u", some "hi", some ["http://h/x.png"], some [("message_id", "m")]⟩ []).2).1 "m",
       ∀ s₁ ∈ replySeqs (send ⟨some "a", some "s", none⟩
        ⟨fun _ => false, fun _ => none, fun _ _ _ => "finfo"⟩ true
        ⟨"u", some "hi", some ["http://h/x.png"], some [("message_id", "m")]⟩ []).1 "m",
       s₁ < s₂) := by
  refine ⟨by decide, by decide, ?_⟩
  intro h
  have := h 2 (by decide) 2 (by decide)
  omega

/-- C9: a message with blank/absent content and empty/absent media makes
no platform API call and leaves the reply-sequence table unchanged. -/
theorem c9_blank_message_noop (cfg : QQConfig) (env : SendEnv) (client_ready : Bool)
    (msg : OutboundMessage) (tbl : List (String × Nat))
    (hc : hasContent msg = false) (hm : hasMedia msg = false) :
    send cfg env client_ready msg tbl = ([], tbl) := by
  unfold send
  cases client_ready with
  | false => simp
  | true => simp [hc, hm]

/-- C9 witness: a concrete blank message is a no-op on a concrete table. -/
theorem c9_blank_message_noop_witness :
    hasContent ⟨"u", some "  ", none, none⟩ = false ∧
    hasMedia ⟨"u", some "  ", none, none⟩ = false ∧
    send ⟨some "a", some "s", none⟩
      ⟨fun _ => false, fun _ => none, fun _ _ _ => "finfo"⟩ true
      ⟨"u", some "  ", none, none⟩ [("m", 3)] = ([], [("m", 3)]) :=
  ⟨by decide, by decide,
    c9_blank_message_noop _ _ _ _ _ (by decide) (by decide)⟩

/-- C7: when the message has media items and nonblank text, the effect
trace ends with the single text post — every media API post precedes it. -/
theorem c7_media_before_text (cfg : QQConfig) (env : SendEnv)
    (msg : OutboundMessage) (tbl : List (String × Nat)) (c : String) (l : List String)
    (hc : msg.content = some c) (hcb : pyStrip c ≠ "") (hm : msg.media = some l)
    (hl : l ≠ []) :
    ∃ A rep tbl', send cfg env true msg tbl =
      (A ++ [Effect.postC2CMessage msg.chat_id 0 (some (pyStrip c)) none rep], tbl') := by
  have hhc : hasContent msg = true := by
    unfold hasContent
    rw [hc]
    simp [hcb]
  unfold send
  simp only [hhc, hc, Option.getD_some]
  obtain ⟨rep, seqOut, hst⟩ :=
    send_text_nonblank msg.chat_id (replyTarget msg) c
      (send_media_list cfg env msg.chat_id (replyTarget msg) (msg.media.getD [])
        (next_msg_seq tbl (replyTarget msg)).1).2 hcb
  simp only [Bool.true_eq_false, false_and, reduceIte, hst]
  exact ⟨_, rep, _, rfl⟩

/-- C7 witness: a concrete message with one media URL and text. -/
theorem c7_media_before_text_witness :
    (some "hi" : Option String) = some "hi" ∧ pyStrip "hi" ≠ "" ∧
    (some ["http://h/x.png"] : Option (List String)) = some ["http://h/x.png"] ∧
    (["http://h/x.png"] : List String) ≠ [] ∧
    ∃ A rep tbl', send ⟨some "a", some "s", none⟩
        ⟨fun _ => false, fun _ => none, fun _ _ _ => "finfo"⟩ true
        ⟨"u", some "hi", some ["http://h/x.png"], none⟩ [] =
      (A ++ [Effect.postC2CMessage "u" 0 (some (pyStrip "hi")) none rep], tbl') :=
  ⟨rfl, by decide, rfl, by decide,
    c7_media_before_text _ _ ⟨"u", some "hi", some ["http://h/x.png"], none⟩ _ _ _
      rfl (by decide) rfl (by decide)⟩

/-- C4: a media path that is already an http(s) URL is posted directly
(`post_c2c_file` with `file_type` 1 on the stripped path, then the media
message) — the trace contains no upload-command invocation. -/
theorem c4_url_media_direct (cfg : QQConfig) (env : SendEnv) (chat_id : String)
    (reply_to : Option String) (path : String) (seq : Option Nat)
    (h : is_url (pyStrip path) = true) :
    ∃ rep seqOut, send_media_path cfg env chat_id reply_to path seq =
      ([Effect.postC2CFile chat_id 1 (pyStrip path),
        Effect.postC2CMessage chat_id 7 none
          (some (env.fileInfo chat_id 1 (pyStrip path))) rep], seqOut) := by
  have hp : pyStrip path ≠ "" := by
    intro he
    rw [he] at h
    exact absurd h (by decide)
  unfold send_media_path
  simp only [hp, h, reduceIte]
  exact post_media_shape chat_id reply_to env 1 (pyStrip path) seq

/-- C4 witness: a concrete http URL in mixed case with surrounding
whitespace is posted directly. -/
theorem c4_url_media_direct_witness :
    is_url (pyStrip " HTTP://h/y ") = true ∧
    ∃ rep seqOut, send_media_path ⟨some "a", some "s", some "up"⟩
        ⟨fun _ => true, fun _ => some "http://pub/z", fun _ _ _ => "finfo"⟩
        "u" (some "m") " HTTP://h/y " (some 5) =
      ([Effect.postC2CFile "u" 1 (pyStrip " HTTP://h/y "),
        Effect.postC2CMessage "u" 7 none (some "finfo") rep], seqOut) :=
  ⟨by decide,
    c4_url_media_direct ⟨some "a", some "s", some "up"⟩
      ⟨fun _ => true, fun _ => some "http://pub/z", fun _ _ _ => "finfo"⟩
      "u" (some "m") " HTTP://h/y " (some 5) (by decide)⟩

/-- C3: a nonblank non-URL path naming an existing local file, with no
upload command configured, yields exactly one fallback text post (one of
the two fixed notices) and neither a media API post nor an upload-command
invocation. -/
theorem c3_local_file_no_command_fallback (cfg : QQConfig) (env : SendEnv)
    (chat_id : String) (reply_to : Option String) (path : String) (seq : Option Nat)
    (hcmd : pyStrip (cfg.media_upload_command.getD "") = "")
    (hp : pyStrip path ≠ "") (hurl : is_url (pyStrip path) = false)
    (hfile : env.isFile (pyStrip path) = true) :
    ∃ t rep seqOut, send_media_path cfg env chat_id reply_to path seq =
      ([Effect.postC2CMessage chat_id 0 (some t) none rep], seqOut) ∧
      (t = FALLBACK_RESTRICTED ∨ t = FALLBACK_UPLOAD) := by
  unfold send_media_path
  simp only [hp, hurl, hfile, Bool.true_eq_false, reduceIte]
  set ext := pyLower (pathSuffix (pyStrip path)) with hext
  by_cases h1 : ext ∈ IMAGE_EXTS
  · simp only [h1, reduceIte]
    unfold upload_to_public_url_sync
    simp only [hcmd, reduceIte]
    obtain ⟨rep, seqOut, hst⟩ :=
      send_text_nonblank chat_id reply_to FALLBACK_UPLOAD seq fallback_upload_ne_blank
    rw [fallback_upload_trim] at hst
    exact ⟨FALLBACK_UPLOAD, rep, seqOut, by simp [hst], Or.inr rfl⟩
  · by_cases h2 : ext = ".mp4"
    · simp only [h1, h2, reduceIte]
      unfold upload_to_public_url_sync
      simp only [hcmd, reduceIte]
      obtain ⟨rep, seqOut, hst⟩ :=
        send_text_nonblank chat_id reply_to FALLBACK_UPLOAD seq fallback_upload_ne_blank
      rw [fallback_upload_trim] at hst
      exact ⟨FALLBACK_UPLOAD, rep, seqOut, by simp [hst, IMAGE_EXTS], Or.inr rfl⟩
    · by_cases h3 : ext = ".silk"
      · simp only [h1, h2, h3, reduceIte]
        unfold upload_to_public_url_sync
        simp only [hcmd, reduceIte]
        obtain ⟨rep, seqOut, hst⟩ :=
          send_text_nonblank chat_id reply_to FALLBACK_UPLOAD seq fallback_upload_ne_blank
        rw [fallback_upload_trim] at hst
        exact ⟨FALLBACK_UPLOAD, rep, seqOut, by simp [hst, IMAGE_EXTS], Or.inr rfl⟩
      · simp only [h1, h2, h3, reduceIte]
        obtain ⟨rep, seqOut, hst⟩ :=
          send_text_nonblank chat_id reply_to FALLBACK_RESTRICTED seq
            fallback_restricted_ne_blank
        rw [fallback_restricted_trim] at hst
        exact ⟨FALLBACK_RESTRICTED, rep, seqOut, hst, Or.inl rfl⟩

/-- C3 witness: a concrete unsupported-extension file with no configured
upload command falls back to a single text notice. -/
theorem c3_local_file_no_command_fallback_witness :
    (pyStrip ((⟨some "a", some "s", none⟩ : QQConfig).media_upload_command.getD "") = "") ∧
    pyStrip "a.xyz" ≠ "" ∧ is_url (pyStrip "a.xyz") = false ∧
    ∃ t rep seqOut, send_media_path ⟨some "a", some "s", none⟩
        ⟨fun _ => true, fun _ => none, fun _ _ _ => "finfo"⟩
        "u" none "a.xyz" none =
      ([Effect.postC2CMessage "u" 0 (some t) none rep], seqOut) ∧
      (t = FALLBACK_RESTRICTED ∨ t = FALLBACK_UPLOAD) :=
  ⟨by decide, by decide, by decide,
    c3_local_file_no_command_fallback ⟨some "a", some "s", none⟩
      ⟨fun _ => true, fun _ => none, fun _ _ _ => "finfo"⟩
      "u" none "a.xyz" none (by decide) (by decide) (by decide) rfl⟩

/-- The new id is always in the buffer right after a `dequeAppend`. -/
theorem mem_dequeAppend_self (l : List String) (x : String) : x ∈ dequeAppend l x := by
  unfold dequeAppend
  rw [List.drop_append_of_le_length (by omega)]
  simp

/-- The wrapper returns exactly the buffer state the body reached. -/
theorem on_message_state_eq (env : InEnv) (ev : C2CMessage) (b : List String) :
    (on_message env ev b).2 = (on_message_body env ev b).2 := by
  unfold on_message
  rcases h : on_message_body env ev b with ⟨e, b'⟩
  cases e <;> rfl

set_option maxRecDepth 8192 in
/-- How `_on_message` updates the dedup buffer: no change without an id or
for a duplicate, otherwise a bounded append — on every path, raising or
not. -/
theorem on_message_body_state (env : InEnv) (ev : C2CMessage) (b : List String) :
    (on_message_body env ev b).2 =
      match ev.id with
      | none => b
      | some x => if x ∈ b then b else dequeAppend b x := by
  rcases hid : ev.id with _ | x
  · unfold on_message_body
    rw [hid]
  · unfold on_message_body
    rw [hid]
    by_cases hx : x ∈ b
    · simp [hx]
    · simp only [hx, if_false, reduceIte]
      rcases ha : ev.author with _ | a
      · rfl
      · dsimp only
        repeat' split
        all_goals rfl

/-- A delivery whose id is already buffered is dropped as a duplicate and
leaves the buffer unchanged. -/
theorem on_message_dup (env : InEnv) (ev : C2CMessage) (b : List String) (x : String)
    (hid : ev.id = some x) (hx : x ∈ b) :
    on_message env ev b = (Outcome.droppedDuplicate, b) := by
  unfold on_message on_message_body
  rw [hid]
  simp [hx]

/-- Folding `dequeAppend` over a list of new ids. -/
def dequeAppendAll (b : List String) (xs : List String) : List String :=
  xs.foldl dequeAppend b

/-- The distinct ids of a list, in first-occurrence order, appended to an
accumulator. -/
def firstOccAppend (acc : List String) (l : List String) : List String :=
  l.foldl (fun a x => if x ∈ a then a else a ++ [x]) acc

/-- The ids carried by a delivery sequence, in order. -/
def idsOf (evs : List (InEnv × C2CMessage)) : List String :=
  evs.filterMap (fun pe => pe.2.id)

/-- A well-formed inbound event with the given id used to exercise the
dedup buffer: text `"hi"`, no attachments. -/
def mkEv (x : String) : C2CMessage :=
  ⟨some x, some ⟨some "u", none⟩, some "hi", none⟩

/-- An environment in which nothing raises. -/
def benignEnv : InEnv :=
  ⟨fun _ => DownloadResult.failed, false⟩

/-- The n-th filler id: a run of `n + 1` letters `a` (distinct lengths
give distinct ids). -/
def aStr (n : Nat) : String :=
  String.mk (List.replicate (n + 1) 'a')

/-- 1000 pairwise-distinct filler deliveries, none with id `"x"`. -/
def c2mids : List (InEnv × C2CMessage) :=
  ((List.range 1000).map aStr).map (fun x => (benignEnv, mkEv x))

/-- The eviction scenario: id `"x"`, then 1000 distinct other ids, then
`"x"` redelivered. -/
def c2evs : List (InEnv × C2CMessage) :=
  (benignEnv, mkEv "x") :: (c2mids ++ [(benignEnv, mkEv "x")])

theorem dequeAppend_length (l : List String) (x : String) (h : l.length ≤ 1000) :
    (dequeAppend l x).length = min (l.length + 1) 1000 := by
  unfold dequeAppend
  rw [List.length_drop]
  simp only [List.length_append, List.length_cons, List.length_nil]
  omega

theorem dequeAppend_of_lt (l : List String) (x : String) (h : l.length < 1000) :
    dequeAppend l x = l ++ [x] := by
  unfold dequeAppend
  have h0 : l.length + 1 - 1000 = 0 := by omega
  rw [h0, List.drop_zero]

theorem mem_dequeAppend (l : List String) (x y : String) (h : y ∈ dequeAppend l x) :
    y ∈ l ∨ y = x := by
  unfold dequeAppend at h
  have := List.mem_of_mem_drop h
  rcases List.mem_append.mp this with h' | h'
  · exact Or.inl h'
  · exact Or.inr (List.mem_singleton.mp h')

theorem suffix_append_right {α : Type} {l₁ l₂ : List α} (t : List α)
    (h : l₁ <:+ l₂) : l₁ ++ t <:+ l₂ ++ t := by
  obtain ⟨s, hs⟩ := h
  exact ⟨s, by rw [← List.append_assoc, hs]⟩

set_option maxRecDepth 16384 in
/-- A bounded-append fold stays a suffix of the plain append and caps its
length at 1000. -/
theorem dequeAppendAll_suffix (xs : List String) :
    ∀ (b : List String), b.length ≤ 1000 →
      dequeAppendAll b xs <:+ b ++ xs ∧
        (dequeAppendAll b xs).length = min (b.length + xs.length) 1000 := by
  induction xs with
  | nil =>
    intro b hb
    constructor
    · simp [dequeAppendAll]
    · simp [dequeAppendAll]
      omega
  | cons x xs ih =>
    intro b hb
    have hlen := dequeAppend_length b x hb
    have hb' : (dequeAppend b x).length ≤ 1000 := by omega
    obtain ⟨hsuf, hlen'⟩ := ih (dequeAppend b x) hb'
    have hstep : dequeAppend b x ++ xs <:+ b ++ (x :: xs) := by
      have hd : dequeAppend b x <:+ b ++ [x] := List.drop_suffix _ _
      have h2 := suffix_append_right xs hd
      rwa [List.append_assoc, List.singleton_append] at h2
    have heq : dequeAppendAll b (x :: xs) = dequeAppendAll (dequeAppend b x) xs := rfl
    constructor
    · rw [heq]
      exact List.IsSuffix.trans hsuf hstep
    · rw [heq, hlen', hlen]
      simp only [List.length_cons]
      omega

theorem suffix_eq_drop {α : Type} {l₁ l₂ : List α} (h : l₁ <:+ l₂) :
    l₁ = l₂.drop (l₂.length - l₁.length) := by
  obtain ⟨t, ht⟩ := h
  subst ht
  have : (t ++ l₁).length - l₁.length = t.length := by
    simp [List.length_append]
  rw [this, List.drop_left]

theorem processAll_append (l₁ l₂ : List (InEnv × C2CMessage)) (b : List String) :
    processAll (l₁ ++ l₂) b =
      ((processAll l₁ b).1 ++ (processAll l₂ (processAll l₁ b).2).1,
       (processAll l₂ (processAll l₁ b).2).2) := by
  induction l₁ generalizing b with
  | nil => simp [processAll]
  | cons pe rest ih =>
    rcases pe with ⟨env, ev⟩
    simp [processAll, ih]

theorem processAll_length (evs : List (InEnv × C2CMessage)) (b : List String) :
    (processAll evs b).1.length = evs.length := by
  induction evs generalizing b with
  | nil => rfl
  | cons pe rest ih =>
    rcases pe with ⟨env, ev⟩
    simp [processAll, ih]

/-- One step of the driver, stated so that the tail list can stay
symbolic. -/
theorem processAll_cons_fst (env : InEnv) (ev : C2CMessage)
    (rest : List (InEnv × C2CMessage)) (b : List String) :
    (processAll ((env, ev) :: rest) b).1 =
      (on_message env ev b).1 :: (processAll rest (on_message env ev b).2).1 := rfl

/-- A fresh id is appended to the buffer, whatever else happens. -/
theorem on_message_fresh (env : InEnv) (ev : C2CMessage) (b : List String)
    (x : String) (hid : ev.id = some x) (hx : x ∉ b) :
    (on_message env ev b).2 = dequeAppend b x := by
  rw [on_message_state_eq, on_message_body_state, hid]
  simp [hx]

set_option maxRecDepth 16384 in
/-- A benign fresh delivery is forwarded and buffered. -/
theorem on_message_benign (x : String) (b : List String) (hx : x ∉ b) :
    on_message benignEnv (mkEv x) b =
      (Outcome.forwarded "u" "u" "hi" [] x 0, dequeAppend b x) := by
  have h1 : on_message_body benignEnv (mkEv x) b =
      (Except.ok (Outcome.forwarded "u" "u" "hi" [] x 0), dequeAppend b x) := by
    unfold on_message_body mkEv
    dsimp only
    rw [if_neg hx]
    rfl
  unfold on_message
  rw [h1]

set_option maxRecDepth 16384 in
/-- Running pairwise-distinct fresh benign deliveries evolves the buffer
exactly by the bounded-append fold. -/
theorem processAll_fresh (xs : List String) :
    ∀ (b : List String), xs.Nodup → (∀ y ∈ xs, y ∉ b) →
      (processAll (xs.map (fun x => (benignEnv, mkEv x))) b).2 = dequeAppendAll b xs := by
  induction xs with
  | nil => intro b _ _; rfl
  | cons x xs ih =>
    intro b hnd hdisj
    obtain ⟨hxnot, hnd'⟩ := List.nodup_cons.mp hnd
    have hxb : x ∉ b := hdisj x (List.mem_cons_self x xs)
    have hstep := on_message_benign x b hxb
    have hdisj' : ∀ y ∈ xs, y ∉ dequeAppend b x := by
      intro y hy hmem
      rcases mem_dequeAppend b x y hmem with h' | h'
      · exact hdisj y (List.mem_cons_of_mem x hy) h'
      · exact hxnot (h' ▸ hy)
    have hih := ih (dequeAppend b x) hnd' hdisj'
    show (processAll ((benignEnv, mkEv x) :: xs.map (fun y => (benignEnv, mkEv y))) b).2 =
      dequeAppendAll (dequeAppend b x) xs
    simp [processAll, hstep, hih]

theorem aStr_injective : Function.Injective aStr := by
  intro m n h
  have hd := congrArg String.data h
  simp only [aStr] at hd
  have := congrArg List.length hd
  simp only [List.length_replicate] at this
  omega

theorem mids_nodup : ((List.range 1000).map aStr).Nodup :=
  List.Nodup.map aStr_injective (List.nodup_range 1000)

theorem x_not_mem_mids : "x" ∉ (List.range 1000).map aStr := by
  intro h
  obtain ⟨n, _, hn⟩ := List.mem_map.mp h
  have hd := congrArg String.data hn
  simp only [aStr, List.replicate_succ] at hd
  have : 'a' = 'x' := ((List.cons.injEq _ _ _ _).mp hd).1
  exact absurd this (by decide)

theorem firstOccAppend_append (acc : List String) (l₁ l₂ : List String) :
    firstOccAppend acc (l₁ ++ l₂) = firstOccAppend (firstOccAppend acc l₁) l₂ := by
  simp [firstOccAppend, List.foldl_append]

theorem mem_firstOccAppend (l : List String) :
    ∀ (acc : List String) (y : String), y ∈ firstOccAppend acc l ↔ y ∈ acc ∨ y ∈ l := by
  induction l with
  | nil => intro acc y; simp [firstOccAppend]
  | cons z l ih =>
    intro acc y
    have hstep : firstOccAppend acc (z :: l) =
        firstOccAppend (if z ∈ acc then acc else acc ++ [z]) l := rfl
    rw [hstep, ih]
    by_cases hz : z ∈ acc
    · simp only [hz, if_true, reduceIte, List.mem_cons]
      constructor
      · rintro (h | h)
        · exact Or.inl h
        · exact Or.inr (Or.inr h)
      · rintro (h | h | h)
        · exact Or.inl h
        · exact Or.inl (h ▸ hz)
        · exact Or.inr h
    · simp only [hz, if_false, reduceIte, List.mem_append, List.mem_singleton,
        List.mem_cons]
      tauto

theorem length_le_firstOccAppend (l : List String) :
    ∀ acc : List String, acc.length ≤ (firstOccAppend acc l).length := by
  induction l with
  | nil => intro acc; simp [firstOccAppend]
  | cons z l ih =>
    intro acc
    have hstep : firstOccAppend acc (z :: l) =
        firstOccAppend (if z ∈ acc then acc else acc ++ [z]) l := rfl
    rw [hstep]
    by_cases hz : z ∈ acc
    · simpa [hz] using ih acc
    · have h1 := ih (acc ++ [z])
      simp only [hz, if_false, reduceIte]
      have h2 : acc.length ≤ (acc ++ [z]).length := by simp
      omega

set_option maxRecDepth 16384 in
/-- While at most 1000 distinct ids have been seen, the dedup buffer is
exactly the ids seen so far in first-occurrence order (no eviction). -/
theorem processAll_buffer_inv (evs : List (InEnv × C2CMessage)) :
    ∀ b : List String, (firstOccAppend b (idsOf evs)).length ≤ 1000 →
      (processAll evs b).2 = firstOccAppend b (idsOf evs) := by
  induction evs with
  | nil => intro b _; rfl
  | cons pe evs ih =>
    rcases pe with ⟨env, ev⟩
    intro b hcap
    rcases hid : ev.id with _ | x
    · have hids : idsOf ((env, ev) :: evs) = idsOf evs := by
        simp [idsOf, List.filterMap_cons, hid]
      have hstate : (on_message env ev b).2 = b := by
        rw [on_message_state_eq, on_message_body_state, hid]
      rw [hids] at hcap ⊢
      show (processAll evs (on_message env ev b).2).2 = _
      rw [hstate]
      exact ih b hcap
    · have hids : idsOf ((env, ev) :: evs) = x :: idsOf evs := by
        simp [idsOf, List.filterMap_cons, hid]
      rw [hids] at hcap ⊢
      have hfstep : firstOccAppend b (x :: idsOf evs) =
          firstOccAppend (if x ∈ b then b else b ++ [x]) (idsOf evs) := rfl
      rw [hfstep] at hcap ⊢
      by_cases hx : x ∈ b
      · simp only [hx, if_true, reduceIte] at hcap ⊢
        have hstate : (on_message env ev b).2 = b := by
          rw [on_message_state_eq, on_message_body_state, hid]
          simp [hx]
        show (processAll evs (on_message env ev b).2).2 = _
        rw [hstate]
        exact ih b hcap
      · simp only [hx, if_false, reduceIte] at hcap ⊢
        have hblen : (b ++ [x]).length ≤
            (firstOccAppend (b ++ [x]) (idsOf evs)).length :=
          length_le_firstOccAppend _ _
        have hlt : b.length < 1000 := by
          simp only [List.length_append, List.length_cons, List.length_nil] at hblen
          omega
        have hstate : (on_message env ev b).2 = b ++ [x] := by
          rw [on_message_fresh env ev b x hid hx, dequeAppend_of_lt b x hlt]
        show (processAll evs (on_message env ev b).2).2 = _
        rw [hstate]
        exact ih (b ++ [x]) hcap

set_option maxRecDepth 16384 in
/-- C2 counterexample: the claim fails as stated.  In the concrete
sequence `c2evs` the first and the last delivery carry the same id `"x"`,
with 1000 distinct ids in between; the first `"x"` is forwarded, the 1000
fresh ids evict it from the capacity-1000 buffer, and the redelivered
`"x"` is forwarded to the bus a second time. -/
theorem c2_eviction_counterexample :
    c2evs.head?.map (fun pe => pe.2.id) = some (some "x") ∧
    c2evs.getLast?.map (fun pe => pe.2.id) = some (some "x") ∧
    c2evs.length = 1002 ∧
    (processAll c2evs []).1.head? =
      some (Outcome.forwarded "u" "u" "hi" [] "x" 0) ∧
    (processAll c2evs []).1.getLast? =
      some (Outcome.forwarded "u" "u" "hi" [] "x" 0) := by
  have hx0 : "x" ∉ ([] : List String) := by simp
  have h0 := on_message_benign "x" [] hx0
  have hd0 : dequeAppend [] "x" = ["x"] := rfl
  rw [hd0] at h0
  have hdisj : ∀ y ∈ (List.range 1000).map aStr, y ∉ (["x"] : List String) := by
    intro y hy hmem
    have : y = "x" := List.mem_singleton.mp hmem
    exact x_not_mem_mids (this ▸ hy)
  have hmid := processAll_fresh ((List.range 1000).map aStr) ["x"] mids_nodup hdisj
  have hxlen : ((List.range 1000).map aStr).length = 1000 := by simp
  have hsuf := dequeAppendAll_suffix ((List.range 1000).map aStr) ["x"] (by simp)
  have hBlen : (dequeAppendAll ["x"] ((List.range 1000).map aStr)).length = 1000 := by
    rw [hsuf.2]
    simp [hxlen]
  have hB : dequeAppendAll ["x"] ((List.range 1000).map aStr) =
      (List.range 1000).map aStr := by
    have h1 := suffix_eq_drop hsuf.1
    rw [hBlen] at h1
    have h2 : ((["x"] : List String) ++ (List.range 1000).map aStr).length - 1000 = 1 := by
      simp [hxlen]
    rw [h2] at h1
    simpa using h1
  have hc2 : c2mids = ((List.range 1000).map aStr).map (fun y => (benignEnv, mkEv y)) := rfl
  have hmid2 : (processAll c2mids ["x"]).2 = (List.range 1000).map aStr := by
    rw [hc2, hmid, hB]
  have hlast := on_message_benign "x" ((List.range 1000).map aStr) x_not_mem_mids
  have hlaststep : (processAll [(benignEnv, mkEv "x")] ((List.range 1000).map aStr)).1 =
      [Outcome.forwarded "u" "u" "hi" [] "x" 0] := by
    rw [processAll_cons_fst, hlast]
    rfl
  have hout : (processAll c2evs []).1 =
      Outcome.forwarded "u" "u" "hi" [] "x" 0 ::
        ((processAll c2mids ["x"]).1 ++ [Outcome.forwarded "u" "u" "hi" [] "x" 0]) := by
    calc (processAll c2evs []).1
        = (on_message benignEnv (mkEv "x") []).1 ::
            (processAll (c2mids ++ [(benignEnv, mkEv "x")])
              (on_message benignEnv (mkEv "x") []).2).1 := rfl
      _ = Outcome.forwarded "u" "u" "hi" [] "x" 0 ::
            (processAll (c2mids ++ [(benignEnv, mkEv "x")]) ["x"]).1 := by rw [h0]
      _ = Outcome.forwarded "u" "u" "hi" [] "x" 0 ::
            ((processAll c2mids ["x"]).1 ++
              (processAll [(benignEnv, mkEv "x")] (processAll c2mids ["x"]).2).1) := by
          rw [processAll_append]
      _ = Outcome.forwarded "u" "u" "hi" [] "x" 0 ::
            ((processAll c2mids ["x"]).1 ++
              [Outcome.forwarded "u" "u" "hi" [] "x" 0]) := by
          rw [hmid2, hlaststep]
  have hml : c2mids.length = 1000 := by
    rw [hc2]
    simp
  refine ⟨rfl, ?_, ?_, ?_, ?_⟩
  · show ((benignEnv, mkEv "x") :: (c2mids ++ [(benignEnv, mkEv "x")])).getLast?.map
      (fun pe => pe.2.id) = some (some "x")
    rw [← List.cons_append, List.getLast?_concat]
    rfl
  · show ((benignEnv, mkEv "x") :: (c2mids ++ [(benignEnv, mkEv "x")])).length = 1002
    rw [List.length_cons, List.length_append, hml]
    rfl
  · rw [hout]
    rfl
  · rw [hout, ← List.cons_append, List.getLast?_concat]

set_option maxRecDepth 16384 in
/-- C2 (amended): for every inbound sequence in which at most 1000
distinct ids occur, an event whose id was already delivered earlier is
dropped as a duplicate, never forwarded a second time.  (The original
claim's "regardless of how many distinct ids arrive in between" fails:
the buffer holds only the 1000 most recent ids.) -/
theorem c2_dedup_within_capacity (evs : List (InEnv × C2CMessage))
    (i j : Nat) (x : String) (pe pe' : InEnv × C2CMessage)
    (hcap : (firstOccAppend [] (idsOf evs)).length ≤ 1000)
    (hij : i < j)
    (hi : evs[i]? = some pe) (hj : evs[j]? = some pe')
    (hxi : pe.2.id = some x) (hxj : pe'.2.id = some x) :
    (processAll evs []).1[j]? = some Outcome.droppedDuplicate := by
  rcases pe' with ⟨env', ev'⟩
  have hjlt : j < evs.length := by
    by_contra hcon
    rw [List.getElem?_eq_none (Nat.le_of_not_lt hcon)] at hj
    cases hj
  have hsplit : evs = evs.take j ++ ((env', ev') :: evs.drop (j + 1)) := by
    conv_lhs => rw [← List.take_append_drop j evs]
    congr 1
    rw [List.drop_eq_getElem_cons hjlt]
    congr 1
    have h1 := hj
    rw [List.getElem?_eq_getElem hjlt] at h1
    exact Option.some.inj h1
  have hids_split : idsOf evs =
      idsOf (evs.take j) ++ idsOf ((env', ev') :: evs.drop (j + 1)) := by
    conv_lhs => rw [hsplit]
    simp [idsOf, List.filterMap_append]
  have hcap_pre : (firstOccAppend [] (idsOf (evs.take j))).length ≤ 1000 := by
    have h1 : firstOccAppend [] (idsOf evs) =
        firstOccAppend (firstOccAppend [] (idsOf (evs.take j)))
          (idsOf ((env', ev') :: evs.drop (j + 1))) := by
      rw [hids_split, firstOccAppend_append]
    have h2 := length_le_firstOccAppend (idsOf ((env', ev') :: evs.drop (j + 1)))
      (firstOccAppend [] (idsOf (evs.take j)))
    rw [h1] at hcap
    omega
  have hbuf := processAll_buffer_inv (evs.take j) [] hcap_pre
  have hpe_mem : pe ∈ evs.take j := by
    have h1 : (evs.take j)[i]? = some pe := by
      rw [List.getElem?_take]
      simp [hij, hi]
    exact List.getElem?_mem h1
  have hx_mem : x ∈ idsOf (evs.take j) :=
    List.mem_filterMap.mpr ⟨pe, hpe_mem, hxi⟩
  have hx_buf : x ∈ (processAll (evs.take j) []).2 := by
    rw [hbuf]
    exact (mem_firstOccAppend _ _ _).mpr (Or.inr hx_mem)
  have hdup := on_message_dup env' ev' _ x hxj hx_buf
  conv_lhs => rw [hsplit]
  rw [processAll_append]
  have hlen1 : (processAll (evs.take j) []).1.length = j := by
    rw [processAll_length, List.length_take]
    omega
  rw [List.getElem?_append_right (le_of_eq hlen1), hlen1, Nat.sub_self]
  show (processAll ((env', ev') :: evs.drop (j + 1))
    (processAll (evs.take j) []).2).1[0]? = _
  simp [processAll, hdup]

/-- C2 witness: a concrete two-event sequence with a duplicated id within
capacity is dropped the second time. -/
theorem c2_dedup_within_capacity_witness :
    (firstOccAppend []
      (idsOf [(benignEnv, mkEv "a"), (benignEnv, mkEv "a")])).length ≤ 1000 ∧
    (0 : Nat) < 1 ∧
    ([(benignEnv, mkEv "a"), (benignEnv, mkEv "a")] :
      List (InEnv × C2CMessage))[0]? = some (benignEnv, mkEv "a") ∧
    ([(benignEnv, mkEv "a"), (benignEnv, mkEv "a")] :
      List (InEnv × C2CMessage))[1]? = some (benignEnv, mkEv "a") ∧
    (benignEnv, mkEv "a").2.id = some "a" ∧
    (processAll [(benignEnv, mkEv "a"), (benignEnv, mkEv "a")] []).1[1]? =
      some Outcome.droppedDuplicate :=
  ⟨by decide, by decide, rfl, rfl, rfl,
    c2_dedup_within_capacity [(benignEnv, mkEv "a"), (benignEnv, mkEv "a")]
      0 1 "a" (benignEnv, mkEv "a") (benignEnv, mkEv "a")
      (by decide) (by decide) rfl rfl rfl rfl⟩

/-- C5: the reconnect loop.  First part: with the running flag constantly
set and every connection attempt failing, `N` units of fuel produce
exactly `N` failed-attempt/5-second-wait cycles and the loop has not
exited.  Second part: whenever the loop does exit, some read of the
running flag returned false — the loop exits only once the flag is
cleared. -/
theorem c5_reconnect_loop :
    (∀ (N r a : Nat), run_bot (fun _ => true) (fun _ => true) N r a =
      ((List.replicate N [RunAction.attemptFail, RunAction.wait]).flatten, false)) ∧
    (∀ (running fails : Nat → Bool) (fuel r a : Nat),
      (run_bot running fails fuel r a).2 = true → ∃ i, running i = false) := by
  constructor
  · intro N
    induction N with
    | zero => intro r a; rfl
    | succ n ih => intro r a; simp [run_bot, ih, List.replicate_succ]
  · intro running fails fuel
    induction fuel with
    | zero => intro r a h; exact absurd h (by simp [run_bot])
    | succ f ih =>
      intro r a h
      by_cases hr : running r
      · unfold run_bot at h
        simp only [hr, reduceIte] at h
        exact ih (r + 2) (a + 1) h
      · exact ⟨r, by simpa using hr⟩

/-- C5 witness: a run that exits did observe a cleared flag. -/
theorem c5_reconnect_loop_witness :
    (run_bot (fun _ => false) (fun _ => false) 1 0 0).2 = true ∧
    ∃ i, (fun _ : Nat => false) i = false :=
  ⟨rfl, c5_reconnect_loop.2 (fun _ => false) (fun _ => false) 1 0 0 rfl⟩

/-- C8: with the SDK available but `app_id` or `secret` missing (Python
falsy), `start` reports the configuration error and returns with the
state untouched — the running flag is not set, no client is created, and
no connection attempt is made. -/
theorem c8_missing_credentials (cfg : QQConfig) (running fails : Nat → Bool)
    (fuel : Nat) (st : ChannelState)
    (h : optTruthy cfg.app_id = false ∨ optTruthy cfg.secret = false) :
    start true cfg running fails fuel st = (StartResult.configError, st, []) := by
  unfold start
  rcases h with h | h <;> simp [h]

/-- C8 witness: a concrete configuration with no `app_id`. -/
theorem c8_missing_credentials_witness :
    (optTruthy (⟨none, some "s", none⟩ : QQConfig).app_id = false ∨
      optTruthy (⟨none, some "s", none⟩ : QQConfig).secret = false) ∧
    start true ⟨none, some "s", none⟩ (fun _ => true) (fun _ => true) 3 ⟨false, false⟩ =
      (StartResult.configError, ⟨false, false⟩, []) :=
  ⟨Or.inl rfl, c8_missing_credentials _ _ _ _ _ (Or.inl rfl)⟩

/-- C6: whenever the body of `_on_message` raises at any of its raise
points, the outer handler catches it: the call returns normally with the
logged-error outcome and the buffer state the body had reached — no
exception propagates to the caller. -/
theorem c6_on_message_catches (env : InEnv) (ev : C2CMessage) (b : List String)
    (h : (on_message_body env ev b).1 = Except.error ()) :
    on_message env ev b = (Outcome.loggedError, (on_message_body env ev b).2) := by
  unfold on_message
  rcases hb : on_message_body env ev b with ⟨e, b'⟩
  rw [hb] at h
  dsimp only at h
  subst h
  rfl

/-- C6 witness: a malformed event (missing `author`) raises in the body,
and `_on_message` still returns normally. -/
theorem c6_on_message_catches_witness :
    (on_message_body ⟨fun _ => DownloadResult.failed, false⟩
        ⟨some "m", none, none, none⟩ []).1 = Except.error () ∧
    on_message ⟨fun _ => DownloadResult.failed, false⟩ ⟨some "m", none, none, none⟩ [] =
      (Outcome.loggedError,
       (on_message_body ⟨fun _ => DownloadResult.failed, false⟩
          ⟨some "m", none, none, none⟩ []).2) :=
  ⟨rfl, c6_on_message_catches _ _ _ rfl⟩

/-- C10: for any delivery carrying an id — whatever the environment does
afterwards, including failing downloads and a raising bus handler — the id
is in the dedup buffer when `_on_message` returns, and an immediate
redelivery of that id is dropped as a duplicate without changing the
buffer. -/
theorem c10_id_buffered_before_work (env env₂ : InEnv) (ev ev₂ : C2CMessage)
    (b : List String) (x : String) (h₁ : ev.id = some x) (h₂ : ev₂.id = some x) :
    x ∈ (on_message env ev b).2 ∧
    on_message env₂ ev₂ (on_message env ev b).2 =
      (Outcome.droppedDuplicate, (on_message env ev b).2) := by
  have hmem : x ∈ (on_message env ev b).2 := by
    rw [on_message_state_eq, on_message_body_state, h₁]
    by_cases hx : x ∈ b
    · simp [hx]
    · simpa [hx] using mem_dequeAppend_self b x
  exact ⟨hmem, on_message_dup env₂ ev₂ _ x h₂ hmem⟩

/-- C10 witness: a first attempt whose bus handler raises still buffers
the id, and the redelivery is dropped. -/
theorem c10_id_buffered_before_work_witness :
    (⟨some "m", some ⟨some "u", none⟩, some "hi", none⟩ : C2CMessage).id = some "m" ∧
    "m" ∈ (on_message ⟨fun _ => DownloadResult.raised, true⟩
      ⟨some "m", some ⟨some "u", none⟩, some "hi", none⟩ []).2 ∧
    on_message ⟨fun _ => DownloadResult.failed, false⟩
        ⟨some "m", some ⟨some "u", none⟩, some "hi", none⟩
        (on_message ⟨fun _ => DownloadResult.raised, true⟩
          ⟨some "m", some ⟨some "u", none⟩, some "hi", none⟩ []).2 =
      (Outcome.droppedDuplicate,
       (on_message ⟨fun _ => DownloadResult.raised, true⟩
          ⟨some "m", some ⟨some "u", none⟩, some "hi", none⟩ []).2) :=
  ⟨rfl,
    c10_id_buffered_before_work ⟨fun _ => DownloadResult.raised, true⟩
      ⟨fun _ => DownloadResult.failed, false⟩
      ⟨some "m", some ⟨some "u", none⟩, some "hi", none⟩
      ⟨some "m", some ⟨some "u", none⟩, some "hi", none⟩ [] "m" rfl rfl⟩

end QQ
